import Mathlib

/-!
Shallow embedding of the FinTrack personal-finance application
(`services.py`, `app.py`, `bank_api.py`, `models.py`) and verification of
the behavioural claims about its categorizer, account-scope resolver,
aggregator, ingestion deduplication and demo-statement generator.

Conventions of the embedding:
* SQLAlchemy rows become Lean structures; the mutable database becomes
  explicit lists of rows passed to and returned from functions.
* Python `int` is `Int`; monetary amounts are modelled as `Int`
  (the claims only use sums and comparisons, never division).
* `datetime` values are modelled by their calendar day (`year`, `month`,
  `day`): every date in the modelled code paths is constructed from a
  `YYYY-MM-DD` string at midnight, so no time-of-day information is ever
  distinguishable.
* A Python function that can raise becomes a function into `Option`/`Except`;
  a `try/except` block becomes a `match` on that result.
-/

namespace FinTrack

/-! ## Python string primitives

Lean's built-in `String` functions are `Substring`/`String.Pos` based and do
not reduce in the kernel, so the Python string primitives the code uses are
re-implemented over the underlying character lists. -/

/-- Python `str.lower()` (the keyword table and the modelled descriptions are
ASCII, where `Char.toLower` agrees with Python). -/
def lowerStr (s : String) : String := ⟨s.data.map Char.toLower⟩

/-- Lexicographic strict comparison of character lists by code point —
Python's `<` on strings. -/
def lexLt : List Char → List Char → Bool
  | _, [] => false
  | [], _ :: _ => true
  | a :: as, b :: bs => if a < b then true else if a = b then lexLt as bs else false

/-- Python `a < b` on strings. -/
def strLtB (a b : String) : Bool := lexLt a.data b.data

/-- The descending order used by `sort(reverse=True)` / `ORDER BY ... DESC`:
`a` precedes `b` when `a` is not smaller. -/
def strDesc (a b : String) : Prop := strLtB a b = false

instance : DecidableRel strDesc := fun a b => by unfold strDesc; infer_instance

/-- Descending sort of a list of strings (`sort(reverse=True)`,
`ORDER BY ... DESC`). -/
def sortDesc (l : List String) : List String := l.insertionSort strDesc

/-- Python `s.startswith(pre)`. -/
def pyStartsWith (s pre : String) : Bool := pre.data.isPrefixOf s.data

/-- One fuel-indexed pass of Python `str.replace`: replaces every
non-overlapping occurrence of `pat` (non-empty) left to right.  The fuel is
only a structural-recursion device; with fuel ≥ length it is never
exhausted. -/
def replaceAux (pat rep : List Char) : Nat → List Char → List Char
  | _, [] => []
  | 0, s => s
  | fuel + 1, c :: rest =>
    if pat.isPrefixOf (c :: rest) then
      rep ++ replaceAux pat rep fuel (rest.drop (pat.length - 1))
    else c :: replaceAux pat rep fuel rest

/-- Python `s.replace(pat, rep)` for non-empty `pat`. -/
def pyReplace (s pat rep : String) : String :=
  ⟨replaceAux pat.data rep.data s.data.length s.data⟩

/-- Python `s.split(sep)` for a single-character separator. -/
def splitOnCharAux (sep : Char) : List Char → List Char → List (List Char)
  | [], acc => [acc.reverse]
  | c :: rest, acc =>
    if c = sep then acc.reverse :: splitOnCharAux sep rest []
    else splitOnCharAux sep rest (c :: acc)

/-- Python `s.split(sep)` for a single-character separator. -/
def pySplitChar (s : String) (sep : Char) : List String :=
  (splitOnCharAux sep s.data []).map (fun cs => ⟨cs⟩)

/-- ASCII whitespace stripped by Python `int(...)`. -/
def isPySpace (c : Char) : Bool :=
  c = ' ' || c = '\t' || c = '\n' || c = '\r' || c = '\x0b' || c = '\x0c'

def digitVal (c : Char) : Nat := c.toNat - '0'.toNat

/-- Continuation of a digit run: further digits, with single underscores
allowed only between digits (Python numeral syntax). -/
def parseDigitsRest (acc : Nat) : List Char → Option Nat
  | [] => some acc
  | '_' :: c :: cs =>
    if c.isDigit then parseDigitsRest (acc * 10 + digitVal c) cs else none
  | ['_'] => none
  | c :: cs => if c.isDigit then parseDigitsRest (acc * 10 + digitVal c) cs else none

/-- A non-empty digit run with single underscores between digits. -/
def parseDigits : List Char → Option Nat
  | c :: cs => if c.isDigit then parseDigitsRest (digitVal c) cs else none
  | [] => none

/-- Model of Python `int(str)`: optional surrounding ASCII whitespace,
optional sign, then decimal digits (with single underscores between digits);
`none` models the `ValueError` raise. -/
def pyInt (s : String) : Option Int :=
  let cs := ((s.data.dropWhile isPySpace).reverse.dropWhile isPySpace).reverse
  match cs with
  | '+' :: rest => (parseDigits rest).map Int.ofNat
  | '-' :: rest => (parseDigits rest).map (fun n => -(Int.ofNat n))
  | rest => (parseDigits rest).map Int.ofNat

/-- Zero-padded decimal of width 2 (Python `%m`, `{:02d}` on month values). -/
def pad2 (n : Nat) : String := if n < 10 then "0" ++ toString n else toString n

/-- Zero-padded decimal of width 4 (Python `%Y`, `{:04d}` on year values). -/
def pad4 (n : Nat) : String :=
  if n < 10 then "000" ++ toString n
  else if n < 100 then "00" ++ toString n
  else if n < 1000 then "0" ++ toString n
  else toString n

/-- `strftime('%Y-%m')` / `f"{year:04d}-{month:02d}"`. -/
def fmtYM (y m : Nat) : String := pad4 y ++ "-" ++ pad2 m

/-- Calendar date (the time-of-day part of the stored `DateTime` is always
midnight in the modelled code paths, see module comment). -/
structure Date where
  year : Nat
  month : Nat
  day : Nat
deriving DecidableEq, Repr

/-- Row of the `transactions` table (`models.py`, class `Transaction`);
`bank_account_id` points to a legacy `BankAccount`, `account_id` to a
`LinkedAccount`, `category_id` to a `Category`, each nullable. -/
structure Transaction where
  user_id : Nat
  bank_account_id : Option Int
  account_id : Option Int
  category_id : Option Nat
  date : Date
  description : String
  amount : Int
deriving DecidableEq, Repr

/-! ## Categorizer (`services.py`) -/

/-- `CATEGORY_KEYWORDS` from `services.py`, in declaration order (Python
dicts preserve insertion order). -/
def CATEGORY_KEYWORDS : List (String × List String) := [
  ("Food & Drink", ["zomato", "swiggy", "mcdonalds", "mcd", "starbucks", "cafe coffee day", "ccd",
                    "dominos", "pizza hut", "eatsure", "burger king", "kfc", "subway", "dunkin"]),
  ("Groceries", ["bigbasket", "blinkit", "zepto", "grofers", "jiomart", "dmart", "reliance fresh",
                 "more", "spencers", "nature basket", "star bazaar"]),
  ("Fuel", ["indian oil", "ioc", "hpcl", "hindustan petroleum", "bharat petroleum", "bpcl",
            "shell", "essar", "reliance petroleum", "petrol", "diesel", "fuel"]),
  ("Subscriptions", ["netflix", "spotify", "prime video", "amazon prime", "hotstar", "disney",
                     "jiocinema", "sonyliv", "zee5", "apple music", "youtube premium", "voot"]),
  ("Utilities", ["bses", "tata power", "bescom", "adani electricity", "airtel", "jio", "vodafone",
                 "vi", "bsnl", "mtnl", "electricity", "water bill", "gas bill", "piped gas",
                 "indraprastha gas", "mahanagar gas"]),
  ("Transport", ["ola", "uber", "rapido", "redbus", "irctc", "metro", "delhi metro", "mumbai metro",
                 "bangalore metro", "namma metro", "makemytrip", "goibibo", "yatra"]),
  ("Shopping", ["amazon", "flipkart", "myntra", "meesho", "ajio", "nykaa", "reliance digital",
                "croma", "vijay sales", "lifestyle", "westside", "max fashion", "pantaloons"]),
  ("Payments", ["paytm", "phonepe", "gpay", "google pay", "bhim", "upi", "mobikwik"]),
  ("Rent/EMI", ["rent", "emi", "housing loan", "home loan", "hdfc", "icici", "sbi", "axis"])]

/-- Substring scan over character lists: does `needle` occur contiguously in
`hay`? -/
def isSubList (needle : List Char) : List Char → Bool
  | [] => needle.isEmpty
  | c :: rest => needle.isPrefixOf (c :: rest) || isSubList needle rest

/-- Python `needle in hay` substring test. -/
def containsSub (hay needle : String) : Bool := isSubList needle.data hay.data

/-- The nested iteration of `categorize_transaction` — categories in
declaration order, keywords in declaration order within each category —
flattened into the visited sequence of (category, keyword) pairs. -/
def catKeywordPairs : List (String × String) :=
  (CATEGORY_KEYWORDS.map (fun ck => ck.2.map (fun kw => (ck.1, kw)))).flatten

/-- The double loop of `categorize_transaction` (`services.py` lines 36-43):
on the first keyword contained in the lowered description, look the category
name up; on a hit assign and stop, on a missing category keep scanning. -/
def scanPairs (lookup : String → Option Nat) (dl : String) :
    List (String × String) → Option Nat
  | [] => none
  | p :: rest =>
    if containsSub dl p.2 then
      match lookup p.1 with
      | some cid => some cid
      | none => scanPairs lookup dl rest
    else scanPairs lookup dl rest

/-- `categorize_transaction` (`services.py` lines 25-45).  The
`Category.query.filter_by(name=...).first()` lookup is abstracted as the
`lookup` parameter; the returned `Bool` is the Python return value and the
returned `Transaction` is the (possibly updated) row. -/
def categorize_transaction (lookup : String → Option Nat) (t : Transaction) :
    Bool × Transaction :=
  if t.category_id.isSome then (false, t)
  else
    match scanPairs lookup (lowerStr t.description) catKeywordPairs with
    | some cid => (true, { t with category_id := some cid })
    | none => (false, t)

/-- Spec-side description of the matching policy: the first (category,
keyword) pair in iteration order whose keyword occurs in the lowered
description determines the category. -/
def firstKeywordCategory (desc : String) : Option String :=
  (catKeywordPairs.find? (fun p => containsSub (lowerStr desc) p.2)).map Prod.fst

/-- The category lookup produced by `initialize_categories` (`services.py`
lines 48-65): every declared category name is present; ids are positions in
declaration order. -/
def stdCatLookup (n : String) : Option Nat :=
  (CATEGORY_KEYWORDS.map Prod.fst).findIdx? (fun c => c == n)

/-! ## Account-scope resolver (`app.py`) -/

/-- Result of `parse_account_param`: `('all', None)`, `('legacy', id)` or
`('linked', id)` as a tagged union. -/
inductive AccountSel where
  | all : AccountSel
  | legacy : Int → AccountSel
  | linked : Int → AccountSel
deriving DecidableEq, Repr

/-- `parse_account_param` (`app.py` lines 78-97).  Note the source removes
the `linked_` marker with `replace`, which deletes **every** occurrence, not
just the prefix; the bare `except:` clauses around `int(...)` become the
`none` cases. -/
def parse_account_param (account_param : String) : AccountSel :=
  if account_param = "all" then .all
  else if pyStartsWith account_param "linked_" then
    match pyInt (pyReplace account_param "linked_" "") with
    | some linked_id => .linked linked_id
    | none => .all
  else
    match pyInt account_param with
    | some legacy_id => .legacy legacy_id
    | none => .all

/-- `year, month = map(int, selected_month.split('-'))` — exactly two
`'-'`-separated parts, both Python integers; `none` models the raise. -/
def parseMonthYM (s : String) : Option (Int × Int) :=
  match (pySplitChar s '-').map pyInt with
  | [some y, some m] => some (y, m)
  | _ => none

/-- Month normalization (`app.py` lines 113-121 and the identical block at
lines 656-663): a missing or empty month parameter defaults to the current
month; an unparseable one falls back to the current month, reformatted as
`f"{year:04d}-{month:02d}"`.  Returns `(selected_month, year, month)`. -/
def normalizeMonth (monthParam : Option String) (now : Date) : String × Int × Int :=
  let sm0 := match monthParam with
    | none => fmtYM now.year now.month
    | some s => if s = "" then fmtYM now.year now.month else s
  match parseMonthYM sm0 with
  | some (y, m) => (sm0, y, m)
  | none => (fmtYM now.year now.month, Int.ofNat now.year, Int.ofNat now.month)

/-- The transactions of a resolved scope (the three `filter` variants in
`app.py` lines 124-147 and again in the aggregation queries): combined scope
filters by owner, the account scopes by the respective foreign key (with no
existence or ownership check). -/
def scopeTransactions (sel : AccountSel) (uid : Nat) (txns : List Transaction) :
    List Transaction :=
  match sel with
  | .all => txns.filter (fun t => t.user_id == uid)
  | .legacy a => txns.filter (fun t => t.bank_account_id == some a)
  | .linked a => txns.filter (fun t => t.account_id == some a)

/-- `strftime('%Y-%m', date)` of a transaction. -/
def txnMonth (t : Transaction) : String := fmtYM t.date.year t.date.month

/-- The `DISTINCT`/`ORDER BY DESC` month query (`app.py` lines 124-149):
distinct `YYYY-MM` values of the scope's transactions, descending. -/
def monthsOfTxns (l : List Transaction) : List String :=
  sortDesc (l.map txnMonth).dedup

/-- `app.py` lines 151-155: an empty month list becomes `[selected_month]`;
a list missing the selected month gets it inserted and is re-sorted
descending. -/
def availableMonths (sm : String) (scopeTxns : List Transaction) : List String :=
  let M := monthsOfTxns scopeTxns
  if M.isEmpty then [sm]
  else if sm ∈ M then M
  else sortDesc (sm :: M)

/-- Return value of `get_selected_account_and_month`. -/
structure ResolveOut where
  account_id : Option Int
  account_type : String
  selected_month : Option String
  all_months : List String
deriving DecidableEq, Repr

/-- `get_selected_account_and_month` (`app.py` lines 100-157).  The account
lists carry just the ids of the user's `BankAccount` / `LinkedAccount` rows
(only their emptiness is consulted); `accountParam`/`monthParam` are the
query parameters (`request.args.get('account', 'all')` supplies the
default). -/
def get_selected_account_and_month (accountParam monthParam : Option String)
    (now : Date) (uid : Nat) (userAccounts linkedAccounts : List Int)
    (txns : List Transaction) : ResolveOut :=
  if userAccounts.isEmpty && linkedAccounts.isEmpty then
    ⟨none, "none", none, []⟩
  else
    let sel := parse_account_param (accountParam.getD "all")
    let sm := (normalizeMonth monthParam now).1
    let months := availableMonths sm (scopeTransactions sel uid txns)
    ⟨match sel with | .all => none | .legacy a => some a | .linked a => some a,
     match sel with | .all => "all" | .legacy _ => "legacy" | .linked _ => "linked",
     some sm, months⟩

/-! ## Aggregator (`app.py`: `dashboard` and `/api/spending-by-category`) -/

/-- `SELECT SUM(amount) ... .scalar()`: SQL `SUM` over zero rows is `NULL`
(`None`), else the sum. -/
def sqlSumScalar (l : List Int) : Option Int :=
  if l.isEmpty then none else some l.sum

/-- Python `x or 0` applied to a sum scalar: `None` and `0` both give `0`. -/
def pyOr0 (o : Option Int) : Int :=
  match o with
  | none => 0
  | some v => if v = 0 then 0 else v

/-- `Category.query` row lookup by id (`categories` table: `(id, name)`,
names unique). -/
def lookupCatName (cats : List (Nat × String)) (cid : Nat) : Option String :=
  (cats.find? (fun c => c.1 == cid)).map Prod.snd

/-- The month window shared by every aggregation query:
`extract('year', date) == year AND extract('month', date) == month` on top of
the scope filter. -/
def monthScopeTxns (sel : AccountSel) (uid : Nat) (y m : Int)
    (txns : List Transaction) : List Transaction :=
  (scopeTransactions sel uid txns).filter
    (fun t => (t.date.year : Int) == y && (t.date.month : Int) == m)

/-- The inner join `Category ⋈ Transaction` on `category_id`, projected to
`(Category.name, amount)`: uncategorized transactions and dangling category
ids do not survive the join. -/
def joinedCatAmounts (cats : List (Nat × String)) (l : List Transaction) :
    List (String × Int) :=
  l.filterMap (fun t =>
    t.category_id.bind (fun cid =>
      (lookupCatName cats cid).map (fun nm => (nm, t.amount))))

/-- The distinct category names of the joined rows (SQL leaves the grouping
order unspecified; no claim depends on it). -/
def namesInOrder (pairs : List (String × Int)) : List String :=
  (pairs.map Prod.fst).dedup

/-- Total of a group. -/
def sumFor (pairs : List (String × Int)) (nm : String) : Int :=
  ((pairs.filter (fun p => p.1 == nm)).map Prod.snd).sum

/-- SQL `GROUP BY Category.name` with `SUM(amount)`: one `(name, total)` row
per distinct name. -/
def groupSums (pairs : List (String × Int)) : List (String × Int) :=
  (namesInOrder pairs).map (fun nm => (nm, sumFor pairs nm))

/-- `ORDER BY SUM(amount) DESC ... .first()` over the grouped rows: some row
achieving the maximal total (`none` on no rows; SQL leaves the tie order
unspecified). -/
def dashTopCategory : List (String × Int) → Option (String × Int)
  | [] => none
  | p :: rest =>
    match dashTopCategory rest with
    | none => some p
    | some q => if q.2 > p.2 then some q else some p

/-- The uncategorized scalar query: `SUM(amount)` over matching transactions
with `category_id == None`. -/
def uncategorizedSum (l : List Transaction) : Option Int :=
  sqlSumScalar ((l.filter (fun t => t.category_id == none)).map (fun t => t.amount))

/-- The chart assembly of `/api/spending-by-category` (`app.py` lines
670-753) for an authorized scope: grouped labels and totals, with the
`"Uncategorized"` bucket appended exactly by
`if uncategorized and uncategorized > 0`. -/
def chartLabelsData (cats : List (Nat × String)) (sel : AccountSel) (uid : Nat)
    (y m : Int) (txns : List Transaction) : List String × List Int :=
  let spending_data := groupSums (joinedCatAmounts cats (monthScopeTxns sel uid y m txns))
  let labels := spending_data.map Prod.fst
  let data := spending_data.map Prod.snd
  match uncategorizedSum (monthScopeTxns sel uid y m txns) with
  | some u => if u > 0 then (labels ++ ["Uncategorized"], data ++ [u]) else (labels, data)
  | none => (labels, data)

/-- One consistent snapshot of the relational store: the transaction and
category tables plus the `(id, user_id)` projections of the two account
tables. -/
structure DbState where
  txns : List Transaction
  cats : List (Nat × String)
  legacy : List (Int × Nat)
  linked : List (Int × Nat)

/-- Dashboard statistics for one scope and month. -/
structure DashStats where
  total_spending : Int
  transaction_count : Nat
  top_category : String
deriving DecidableEq, Repr

/-- The `try` body of the dashboard's stats computation (`app.py` lines
195-267): total via `scalar() or 0`, count, and top category name with
`'N/A'` default. -/
def dashboardStatsBody (sel : AccountSel) (uid : Nat) (y m : Int)
    (st : DbState) : DashStats :=
  { total_spending :=
      pyOr0 (sqlSumScalar ((monthScopeTxns sel uid y m st.txns).map (fun t => t.amount)))
  , transaction_count := (monthScopeTxns sel uid y m st.txns).length
  , top_category :=
      match dashTopCategory
          (groupSums (joinedCatAmounts st.cats (monthScopeTxns sel uid y m st.txns))) with
      | some p => p.1
      | none => "N/A" }

/-- The dashboard aggregation boundary (`app.py` lines 164-306): the whole
body runs under `try`; a store fault (modelled as `Except.error`) lands in
the `except` branch, which renders total 0, count 0 and top `'N/A'`. -/
def dashboardStats (sel : AccountSel) (uid : Nat) (y m : Int)
    (db : Except String DbState) : DashStats :=
  match db with
  | .ok st => dashboardStatsBody sel uid y m st
  | .error _ => ⟨0, 0, "N/A"⟩

/-- The `try` body of `/api/spending-by-category` (`app.py` lines 653-753):
for a legacy/linked scope, a missing account or one owned by another user
short-circuits to the empty chart; otherwise the chart is assembled. -/
def chartBody (sel : AccountSel) (uid : Nat) (y m : Int) (st : DbState) :
    List String × List Int :=
  match sel with
  | .all => chartLabelsData st.cats .all uid y m st.txns
  | .legacy a =>
    match st.legacy.find? (fun r => r.1 == a) with
    | none => ([], [])
    | some r =>
      if r.2 ≠ uid then ([], [])
      else chartLabelsData st.cats (.legacy a) uid y m st.txns
  | .linked a =>
    match st.linked.find? (fun r => r.1 == a) with
    | none => ([], [])
    | some r =>
      if r.2 ≠ uid then ([], [])
      else chartLabelsData st.cats (.linked a) uid y m st.txns

/-- The chart aggregation boundary (`app.py` lines 650-759): the `except`
branch returns `{'labels': [], 'data': []}` with status 200. -/
def spending_by_category (sel : AccountSel) (uid : Nat) (y m : Int)
    (db : Except String DbState) : List String × List Int :=
  match db with
  | .ok st => chartBody sel uid y m st
  | .error _ => ([], [])

/-! ## Ingestion deduplication (`app.py` `bank_sync_account`,
`bank_api.py` `sync_all_accounts`) -/

/-- A raw transaction candidate from the bank feed:
`{date, description, amount}`. -/
structure TxData where
  date : Date
  description : String
  amount : Int
deriving DecidableEq, Repr

/-- The duplicate filter of `bank_sync_account` (`app.py` lines 502-507): an
existing transaction of the same linked account with equal date, description
and (absolute) amount. -/
def bankSyncMatches (acct : Int) (tx : TxData) (s : Transaction) : Bool :=
  s.account_id == some acct && s.date == tx.date
    && s.description == tx.description && s.amount == |tx.amount|

/-- One candidate of the `bank_sync_account` ingestion loop (`app.py` lines
499-522): skip when a duplicate exists (the query sees previously flushed
inserts), else insert the new row and run the categorizer on it. -/
def bank_sync_step (lookup : String → Option Nat) (uid : Nat) (acct : Int)
    (stored : List Transaction) (tx : TxData) : List Transaction :=
  if stored.any (bankSyncMatches acct tx) then stored
  else stored ++ [(categorize_transaction lookup
      ⟨uid, none, some acct, none, tx.date, tx.description, |tx.amount|⟩).2]

/-- The `bank_sync_account` ingestion loop over a monthly statement. -/
def bank_sync_ingest (lookup : String → Option Nat) (uid : Nat) (acct : Int)
    (stored : List Transaction) (txs : List TxData) : List Transaction :=
  txs.foldl (bank_sync_step lookup uid acct) stored

/-- The duplicate filter of `sync_all_accounts` (`bank_api.py` lines
338-342): only account, description and amount are compared — the date is
not part of the filter. -/
def syncAllMatches (acct : Int) (tx : TxData) (s : Transaction) : Bool :=
  s.bank_account_id == some acct && s.description == tx.description
    && s.amount == tx.amount

/-- One candidate of the `sync_all_accounts` ingestion loop (`bank_api.py`
lines 336-356). -/
def sync_all_step (lookup : String → Option Nat) (uid : Nat) (acct : Int)
    (stored : List Transaction) (tx : TxData) : List Transaction :=
  if stored.any (syncAllMatches acct tx) then stored
  else stored ++ [(categorize_transaction lookup
      ⟨uid, some acct, none, none, tx.date, tx.description, tx.amount⟩).2]

/-- The `sync_all_accounts` ingestion loop over a statement. -/
def sync_all_ingest (lookup : String → Option Nat) (uid : Nat) (acct : Int)
    (stored : List Transaction) (txs : List TxData) : List Transaction :=
  txs.foldl (sync_all_step lookup uid acct) stored

/-! ## Demo statement generator (`bank_api.py`) -/

/-- The `merchants` dict of `generate_monthly_statement` (`bank_api.py`
lines 29-87): `(name, (base amount, category))` in declaration order. -/
def merchants : List (String × Int × String) := [
  ("Zomato", 450, "Food & Drink"), ("Swiggy", 380, "Food & Drink"),
  ("McDonald's", 150, "Food & Drink"), ("Dominos", 400, "Food & Drink"),
  ("Starbucks", 250, "Food & Drink"), ("Cafe Coffee Day", 180, "Food & Drink"),
  ("Blinkit", 250, "Groceries"), ("Zepto", 180, "Groceries"),
  ("Big Basket", 1200, "Groceries"), ("Dmart", 800, "Groceries"),
  ("Flipkart", 1200, "Shopping"), ("Amazon", 2500, "Shopping"),
  ("Myntra", 800, "Shopping"), ("Ajio", 600, "Shopping"),
  ("Uber", 350, "Transport"), ("Ola", 280, "Transport"),
  ("MakeMyTrip", 5000, "Transport"),
  ("Electricity Bill", 1800, "Utilities"), ("Water Bill", 400, "Utilities"),
  ("Internet Bill", 799, "Utilities"), ("Mobile Recharge", 499, "Subscriptions"),
  ("Netflix", 199, "Subscriptions"), ("Spotify", 79, "Subscriptions"),
  ("Prime Video", 129, "Subscriptions"), ("Gym Membership", 500, "Subscriptions"),
  ("Rent Payment", 12000, "Rent/EMI"), ("Home Loan EMI", 25000, "Rent/EMI"),
  ("Petrol Pump", 1500, "Fuel"), ("Shell Gas Station", 1200, "Fuel"),
  ("BookMyShow", 400, "Shopping"), ("PVR Cinema", 450, "Shopping"),
  ("Airbnb", 2000, "Shopping"),
  ("PharmEasy", 150, "Groceries"), ("Apollo Pharmacy", 200, "Groceries"),
  ("ATM Withdrawal", 5000, "Uncategorized"), ("Transfer to Friend", 1000, "Uncategorized")]

/-- `random.randint(a, b)` (inclusive bounds) driven by a raw seed value. -/
def pyRandint (r a b : Nat) : Nat := a + r % (b + 1 - a)

/-- `random.randint(a, b)` on integer bounds (used for the -30..30
variance). -/
def pyRandintI (r : Nat) (a b : Int) : Int := a + ((r % (b + 1 - a).toNat : Nat) : Int)

/-- Gregorian leap-year rule used by `datetime`. -/
def isLeap (y : Int) : Bool := (y % 4 == 0 && y % 100 != 0) || y % 400 == 0

/-- Days in a month per `datetime`'s calendar. -/
def daysInMonth (y m : Int) : Int :=
  if m = 2 then (if isLeap y then 29 else 28)
  else if m = 4 ∨ m = 6 ∨ m = 9 ∨ m = 11 then 30
  else 31

/-- `datetime(year, month, day)` succeeds exactly within these bounds
(`MINYEAR = 1`, `MAXYEAR = 9999`); `false` models the `ValueError` raise. -/
def datetimeValid (y m d : Int) : Bool :=
  1 ≤ y && y ≤ 9999 && 1 ≤ m && m ≤ 12 && 1 ≤ d && d ≤ daysInMonth y m

/-- A generated statement entry; the source formats the date as
`YYYY-MM-DD` via `strftime` — the components it formats are kept. -/
structure GenTx where
  dyear : Int
  dmonth : Int
  dday : Int
  description : String
  amount : Int
  category : String
deriving DecidableEq, Repr

/-- `generate_monthly_statement` (`bank_api.py` lines 15-125), with the
random draws supplied by seed streams: `rNum` drives `randint(15, 25)`;
`rDay i`, `rMerch i` and `rVar i` drive iteration `i`'s day draw, merchant
choice (`random.choice` picks an index into the key list) and variance
draw.  The per-iteration `try/except ... continue` appears as the
`filterMap` dropping iterations whose `datetime(year, month, day)`
raises. -/
def generate_monthly_statement (year month : Int) (rNum : Nat)
    (rDay rMerch rVar : Nat → Nat) : List GenTx :=
  let num_transactions := pyRandint rNum 15 25
  (List.range num_transactions).filterMap (fun i =>
    let day : Int := ((pyRandint (rDay i) 1 28 : Nat) : Int)
    if datetimeValid year month day then
      let merchant := merchants.getD (rMerch i % merchants.length) ("", 0, "")
      let base_amount := merchant.2.1
      let variance := pyRandintI (rVar i) (-30) 30
      let amount := max 50 (base_amount + (base_amount * variance).fdiv 100)
      some ⟨year, month, day, "Payment to " ++ merchant.1, amount, merchant.2.2⟩
    else none)

/-! ## Theorems -/

theorem mem_catKeywordPairs_fst {p : String × String} (hp : p ∈ catKeywordPairs) :
    p.1 ∈ CATEGORY_KEYWORDS.map Prod.fst := by
  simp only [catKeywordPairs, List.mem_flatten, List.mem_map] at hp
  obtain ⟨l, ⟨ck, hck, rfl⟩, hpl⟩ := hp
  simp only [List.mem_map] at hpl
  obtain ⟨kw, _, rfl⟩ := hpl
  exact List.mem_map.mpr ⟨ck, hck, rfl⟩

theorem scanPairs_eq_find (lookup : String → Option Nat) (dl : String)
    (pairs : List (String × String))
    (h : ∀ p ∈ pairs, (lookup p.1).isSome) :
    scanPairs lookup dl pairs
      = (pairs.find? (fun p => containsSub dl p.2)).bind (fun p => lookup p.1) := by
  induction pairs with
  | nil => rfl
  | cons p rest ih =>
    have hp := h p (List.mem_cons_self _ _)
    have hrest : ∀ q ∈ rest, (lookup q.1).isSome :=
      fun q hq => h q (List.mem_cons_of_mem _ hq)
    by_cases hc : containsSub dl p.2
    · have hfind : List.find? (fun q => containsSub dl q.2) (p :: rest) = some p := by
        simp [List.find?_cons, hc]
      rw [scanPairs, if_pos hc, hfind]
      cases hl : lookup p.1 with
      | some cid => simp [hl]
      | none => rw [hl] at hp; simp at hp
    · have hfind : List.find? (fun q => containsSub dl q.2) (p :: rest)
          = List.find? (fun q => containsSub dl q.2) rest := by
        simp [List.find?_cons, hc]
      rw [scanPairs, if_neg hc, hfind, ih hrest]

/-- C1: categorization iterates the categories in the fixed declaration
order Food & Drink, Groceries, Fuel, Subscriptions, Utilities, Transport,
Shopping, Payments, Rent/EMI, and within each category the keywords in
declaration order; for an uncategorized transaction the first keyword
occurring as a substring of the lowercased description determines the
assigned category (first-match-wins, no scoring, no longest-match
preference); in particular "SWIGGY DELIVERY RENT PAYMENT" is assigned
Food & Drink, not Rent/EMI. -/
theorem categorize_first_match_wins (lookup : String → Option Nat)
    (hl : ∀ c ∈ CATEGORY_KEYWORDS.map Prod.fst, (lookup c).isSome) :
    (CATEGORY_KEYWORDS.map Prod.fst
      = ["Food & Drink", "Groceries", "Fuel", "Subscriptions", "Utilities",
         "Transport", "Shopping", "Payments", "Rent/EMI"])
    ∧ (∀ t : Transaction, t.category_id = none →
        (categorize_transaction lookup t).2.category_id
          = (firstKeywordCategory t.description).bind lookup)
    ∧ firstKeywordCategory "SWIGGY DELIVERY RENT PAYMENT" = some "Food & Drink" := by
  refine ⟨by decide, ?_, by decide⟩
  intro t ht
  have hall : ∀ p ∈ catKeywordPairs, (lookup p.1).isSome :=
    fun p hp => hl p.1 (mem_catKeywordPairs_fst hp)
  rw [categorize_transaction, if_neg (by simp [ht]),
    scanPairs_eq_find _ _ _ hall, firstKeywordCategory]
  cases hf : catKeywordPairs.find? (fun p => containsSub (lowerStr t.description) p.2) with
  | none => simp [ht]
  | some p =>
    obtain ⟨cid, hcid⟩ :=
      Option.isSome_iff_exists.mp (hall p (List.mem_of_find?_eq_some hf))
    simp [hcid]

/-- Witness for C1 at the standard category table and the spec's example
description. -/
theorem categorize_first_match_wins_witness :
    (∀ c ∈ CATEGORY_KEYWORDS.map Prod.fst, (stdCatLookup c).isSome)
    ∧ (categorize_transaction stdCatLookup
        ⟨1, none, none, none, ⟨2025, 3, 1⟩, "SWIGGY DELIVERY RENT PAYMENT", 450⟩).2.category_id
        = stdCatLookup "Food & Drink" := by
  have h := categorize_first_match_wins stdCatLookup (by decide)
  refine ⟨by decide, ?_⟩
  rw [h.2.1 _ rfl, h.2.2]
  rfl

/-- C9 counterexample: `"linked_linked_7"` is prefixed with `"linked_"` and
its suffix `"linked_7"` is not an integer, yet the function returns
`('linked', 7)` — not `('all', None)` — because `replace` deletes every
occurrence of `"linked_"`. -/
theorem parse_account_param_linked_suffix_cex :
    pyStartsWith "linked_linked_7" "linked_" = true
    ∧ pyInt "linked_7" = none
    ∧ parse_account_param "linked_linked_7" = .linked 7
    ∧ parse_account_param "linked_linked_7" ≠ .all := by
  refine ⟨by decide, by decide, by decide, by decide⟩

/-- C9 (amended): `parse_account_param` is total, returning exactly one of
`('all', None)`, `('legacy', n)` or `('linked', n)` for every input string;
the token `"all"` yields `('all', None)`; a token prefixed with `"linked_"`
yields `('all', None)` exactly when deleting every occurrence of `"linked_"`
does not leave an integer; any other token that is not an integer yields
`('all', None)`. -/
theorem parse_account_param_total (s : String) (hs : s ≠ "all") :
    (parse_account_param s = .all
      ∨ (∃ n, parse_account_param s = .legacy n)
      ∨ (∃ n, parse_account_param s = .linked n))
    ∧ parse_account_param "all" = .all
    ∧ (pyStartsWith s "linked_" = true →
        parse_account_param s
          = (match pyInt (pyReplace s "linked_" "") with
             | some n => .linked n
             | none => .all))
    ∧ (pyStartsWith s "linked_" = false → pyInt s = none →
        parse_account_param s = .all) := by
  refine ⟨?_, rfl, ?_, ?_⟩
  · unfold parse_account_param
    split
    · exact Or.inl rfl
    · split
      · cases h : pyInt (pyReplace s "linked_" "") with
        | some n => exact Or.inr (Or.inr ⟨n, by simp [h]⟩)
        | none => exact Or.inl (by simp [h])
      · cases h : pyInt s with
        | some n => exact Or.inr (Or.inl ⟨n, by simp [h]⟩)
        | none => exact Or.inl (by simp [h])
  · intro h
    unfold parse_account_param
    rw [if_neg hs, if_pos h]
  · intro h hint
    unfold parse_account_param
    rw [if_neg hs, if_neg (by simp [h]), hint]

/-- Witness for C9 (amended) at concrete selector strings. -/
theorem parse_account_param_total_witness :
    ("9999999" ≠ "all"
      ∧ (parse_account_param "9999999" = .all
          ∨ (∃ n, parse_account_param "9999999" = .legacy n)
          ∨ (∃ n, parse_account_param "9999999" = .linked n)))
    ∧ ("garbage!" ≠ "all" ∧ pyStartsWith "garbage!" "linked_" = false
        ∧ pyInt "garbage!" = none ∧ parse_account_param "garbage!" = .all) := by
  refine ⟨⟨by decide, (parse_account_param_total "9999999" (by decide)).1⟩,
    by decide, by decide, by decide,
    (parse_account_param_total "garbage!" (by decide)).2.2.2 (by decide) (by decide)⟩

/-- C3 counterexample: the requesting user (id 1) owns only bank account 1,
no account 9999999 exists anywhere, yet `resolve(user, "9999999")` yields the
individual legacy scope for id 9999999 — not the combined scope: the resolver
performs no existence or ownership check at all. -/
theorem resolver_no_ownership_fallback_cex :
    (get_selected_account_and_month (some "9999999") none ⟨2025, 10, 12⟩ 1 [1] [] []).account_type
      = "legacy"
    ∧ (get_selected_account_and_month (some "9999999") none ⟨2025, 10, 12⟩ 1 [1] [] []).account_id
      = some 9999999
    ∧ (get_selected_account_and_month (some "9999999") none ⟨2025, 10, 12⟩ 1 [1] [] []).account_type
      ≠ "all" := by
  refine ⟨by decide, by decide, by decide⟩

/-- C3 (amended): for every selector string that is unparseable, scope
resolution silently falls back to the combined all-accounts scope of the
requesting user rather than returning an error; but a selector that parses
as a bare integer or as `linked_` plus an integer resolves to the individual
legacy/linked scope with that id regardless of whether such an account
exists or who owns it (the theorem quantifies over arbitrary account lists
and transactions, none of which influence the selected scope). -/
theorem resolver_scope_selection (accountParam monthParam : Option String)
    (now : Date) (uid : Nat) (userAccounts linkedAccounts : List Int)
    (txns : List Transaction)
    (hacc : userAccounts ≠ [] ∨ linkedAccounts ≠ []) :
    (parse_account_param (accountParam.getD "all") = .all →
      (get_selected_account_and_month accountParam monthParam now uid
        userAccounts linkedAccounts txns).account_type = "all"
      ∧ (get_selected_account_and_month accountParam monthParam now uid
          userAccounts linkedAccounts txns).account_id = none)
    ∧ (∀ n, parse_account_param (accountParam.getD "all") = .legacy n →
        (get_selected_account_and_month accountParam monthParam now uid
          userAccounts linkedAccounts txns).account_type = "legacy"
        ∧ (get_selected_account_and_month accountParam monthParam now uid
            userAccounts linkedAccounts txns).account_id = some n)
    ∧ (∀ n, parse_account_param (accountParam.getD "all") = .linked n →
        (get_selected_account_and_month accountParam monthParam now uid
          userAccounts linkedAccounts txns).account_type = "linked"
        ∧ (get_selected_account_and_month accountParam monthParam now uid
            userAccounts linkedAccounts txns).account_id = some n) := by
  have hne : (userAccounts.isEmpty && linkedAccounts.isEmpty) = false := by
    cases hacc with
    | inl h => simp [List.isEmpty_iff, h]
    | inr h => simp [List.isEmpty_iff, h]
  unfold get_selected_account_and_month
  rw [if_neg (by simp [hne])]
  refine ⟨fun h => ?_, fun n h => ?_, fun n h => ?_⟩ <;> rw [h] <;> exact ⟨rfl, rfl⟩

/-- Witness for C3 (amended): a user owning only account 1 selecting
account "9999999". -/
theorem resolver_scope_selection_witness :
    parse_account_param ((some "9999999").getD "all") = .legacy 9999999
    ∧ (get_selected_account_and_month (some "9999999") none ⟨2025, 10, 12⟩ 1 [1] [] []).account_type
        = "legacy"
    ∧ (get_selected_account_and_month (some "9999999") none ⟨2025, 10, 12⟩ 1 [1] [] []).account_id
        = some 9999999 := by
  have h := (resolver_scope_selection (some "9999999") none ⟨2025, 10, 12⟩ 1 [1] [] []
    (Or.inl (by decide))).2.1 9999999 (by decide)
  exact ⟨by decide, h.1, h.2⟩

/-! ### Order facts about the descending string sort -/

theorem lexLt_irrefl (x : List Char) : lexLt x x = false := by
  induction x with
  | nil => rfl
  | cons a as ih => simp [lexLt, ih]

theorem lexLt_trans : ∀ {x y z : List Char},
    lexLt x y = true → lexLt y z = true → lexLt x z = true
  | [], _ :: _, _ :: _, _, _ => rfl
  | _ :: _, [], _, h1, _ => by simp [lexLt] at h1
  | [], [], _, h1, _ => by simp [lexLt] at h1
  | _, _ :: _, [], _, h2 => by simp [lexLt] at h2
  | a :: as, b :: bs, c :: cs, h1, h2 => by
    simp only [lexLt] at h1 h2 ⊢
    by_cases hab : a < b
    · by_cases hbc : b < c
      · rw [if_pos (lt_trans hab hbc)]
      · rw [if_neg hbc] at h2
        by_cases hbc2 : b = c
        · subst hbc2; rw [if_pos hab]
        · rw [if_neg hbc2] at h2; simp at h2
    · rw [if_neg hab] at h1
      by_cases hab2 : a = b
      · subst hab2
        rw [if_pos rfl] at h1
        by_cases hac : a < c
        · rw [if_pos hac]
        · rw [if_neg hac] at h2 ⊢
          by_cases hac2 : a = c
          · rw [if_pos hac2] at h2 ⊢
            exact lexLt_trans h1 h2
          · rw [if_neg hac2] at h2; simp at h2
      · rw [if_neg hab2] at h1; simp at h1

theorem eq_of_not_lexLt : ∀ {x y : List Char},
    lexLt x y = false → lexLt y x = false → x = y
  | [], [], _, _ => rfl
  | [], _ :: _, h1, _ => by simp [lexLt] at h1
  | _ :: _, [], _, h2 => by simp [lexLt] at h2
  | a :: as, b :: bs, h1, h2 => by
    simp only [lexLt] at h1 h2
    by_cases hab : a < b
    · rw [if_pos hab] at h1; simp at h1
    · by_cases hba : b < a
      · rw [if_pos hba] at h2; simp at h2
      · have heq : a = b := le_antisymm (not_lt.mp hba) (not_lt.mp hab)
        subst heq
        rw [if_neg hab, if_pos rfl] at h1
        rw [if_neg hab, if_pos rfl] at h2
        rw [eq_of_not_lexLt h1 h2]

theorem lexLt_asymm {x y : List Char} (h : lexLt x y = true) : lexLt y x = false := by
  cases hyx : lexLt y x with
  | false => rfl
  | true =>
    have hxx := lexLt_trans h hyx
    rw [lexLt_irrefl] at hxx
    simp at hxx

theorem strDesc_isTotal : IsTotal String strDesc :=
  ⟨fun a b => by
    unfold strDesc strLtB
    cases h : lexLt a.data b.data with
    | false => exact Or.inl rfl
    | true => exact Or.inr (lexLt_asymm h)⟩

theorem strDesc_isTrans : IsTrans String strDesc :=
  ⟨fun a b c h1 h2 => by
    unfold strDesc strLtB at h1 h2 ⊢
    cases hba : lexLt b.data a.data with
    | false =>
      have : a.data = b.data := eq_of_not_lexLt h1 hba
      rw [this]; exact h2
    | true =>
      cases hac : lexLt a.data c.data with
      | false => rfl
      | true =>
        have hbc := lexLt_trans hba hac
        rw [h2] at hbc
        simp at hbc⟩

theorem sortDesc_sorted (l : List String) : (sortDesc l).Sorted strDesc := by
  haveI := strDesc_isTotal
  haveI := strDesc_isTrans
  exact List.sorted_insertionSort strDesc l

theorem sortDesc_perm (l : List String) : List.Perm (sortDesc l) l :=
  List.perm_insertionSort strDesc l

theorem mem_sortDesc {x : String} {l : List String} : x ∈ sortDesc l ↔ x ∈ l :=
  (sortDesc_perm l).mem_iff

theorem sortDesc_nodup {l : List String} (h : l.Nodup) : (sortDesc l).Nodup :=
  ((sortDesc_perm l).nodup_iff).mpr h

theorem monthsOfTxns_nodup (l : List Transaction) : (monthsOfTxns l).Nodup :=
  sortDesc_nodup (l.map txnMonth).nodup_dedup

theorem mem_monthsOfTxns {x : String} {l : List Transaction} :
    x ∈ monthsOfTxns l ↔ x ∈ l.map txnMonth := by
  rw [monthsOfTxns, mem_sortDesc, List.mem_dedup]

theorem monthsOfTxns_eq_nil {l : List Transaction} (h : monthsOfTxns l = []) :
    l.map txnMonth = [] := by
  have hd : (l.map txnMonth).dedup = [] := by
    have := sortDesc_perm (l.map txnMonth).dedup
    rw [monthsOfTxns] at h
    rw [h] at this
    exact this.symm.eq_nil
  exact (List.dedup_eq_nil _).mp hd

/-- Behaviour of the available-months computation (`app.py` lines 123-155):
the result is duplicate-free, sorted descending, contains exactly the scope's
transaction months plus the selected month, and collapses to just the
selected month when the scope has no transactions. -/
theorem availableMonths_spec (sm : String) (l : List Transaction) :
    sm ∈ availableMonths sm l
    ∧ (availableMonths sm l).Sorted strDesc
    ∧ (availableMonths sm l).Nodup
    ∧ (∀ x, x ∈ availableMonths sm l ↔ x = sm ∨ x ∈ l.map txnMonth)
    ∧ (l = [] → availableMonths sm l = [sm]) := by
  unfold availableMonths
  by_cases hM : (monthsOfTxns l).isEmpty
  · rw [if_pos hM]
    have hnil : monthsOfTxns l = [] := List.isEmpty_iff.mp hM
    have hmapnil := monthsOfTxns_eq_nil hnil
    refine ⟨List.mem_singleton.mpr rfl, List.sorted_singleton _, List.nodup_singleton _,
      fun x => ?_, fun _ => rfl⟩
    rw [hmapnil]
    simp
  · rw [if_neg hM]
    by_cases hmem : sm ∈ monthsOfTxns l
    · rw [if_pos hmem]
      refine ⟨hmem, sortDesc_sorted _, monthsOfTxns_nodup l, fun x => ?_, fun hl => ?_⟩
      · constructor
        · intro hx; exact Or.inr (mem_monthsOfTxns.mp hx)
        · rintro (rfl | hx)
          · exact hmem
          · exact mem_monthsOfTxns.mpr hx
      · exact absurd (by rw [hl]; rfl) hM
    · rw [if_neg hmem]
      have hperm : List.Perm (sortDesc (sm :: monthsOfTxns l)) (sm :: monthsOfTxns l) :=
        sortDesc_perm _
      refine ⟨hperm.mem_iff.mpr (List.mem_cons_self _ _), sortDesc_sorted _,
        sortDesc_nodup (List.nodup_cons.mpr ⟨hmem, monthsOfTxns_nodup l⟩),
        fun x => ?_, fun hl => ?_⟩
      · rw [hperm.mem_iff, List.mem_cons, mem_monthsOfTxns]
      · exact absurd (by rw [hl]; rfl) hM

/-- C5: for every resolved scope, the returned `availableMonths` list is the
distinct set of `YYYY-MM` values of the scope's transaction dates sorted
descending with the normalized selected month always included: it equals
`[normalizedMonth]` when the scope has no transactions, and otherwise
contains exactly the scope's months plus the normalized month, duplicate-free
and sorted descending. -/
theorem resolver_available_months (accountParam monthParam : Option String)
    (now : Date) (uid : Nat) (userAccounts linkedAccounts : List Int)
    (txns : List Transaction)
    (hacc : userAccounts ≠ [] ∨ linkedAccounts ≠ [])
    (out : ResolveOut)
    (hout : out = get_selected_account_and_month accountParam monthParam now uid
        userAccounts linkedAccounts txns)
    (sm : String) (hsm : sm = (normalizeMonth monthParam now).1)
    (scope : List Transaction)
    (hscope : scope
      = scopeTransactions (parse_account_param (accountParam.getD "all")) uid txns) :
    out.selected_month = some sm
    ∧ sm ∈ out.all_months
    ∧ out.all_months.Sorted strDesc
    ∧ out.all_months.Nodup
    ∧ (∀ x, x ∈ out.all_months ↔ x = sm ∨ x ∈ scope.map txnMonth)
    ∧ (scope = [] → out.all_months = [sm]) := by
  have hne : (userAccounts.isEmpty && linkedAccounts.isEmpty) = false := by
    cases hacc with
    | inl h => simp [List.isEmpty_iff, h]
    | inr h => simp [List.isEmpty_iff, h]
  have hout2 : out.selected_month = some sm
      ∧ out.all_months = availableMonths sm scope := by
    rw [hout, hsm, hscope]
    unfold get_selected_account_and_month
    rw [if_neg (by simp [hne])]
    cases parse_account_param (accountParam.getD "all") <;> exact ⟨rfl, rfl⟩
  obtain ⟨h1, h2⟩ := hout2
  have hs := availableMonths_spec sm scope
  rw [h2]
  exact ⟨h1, hs.1, hs.2.1, hs.2.2.1, hs.2.2.2.1, hs.2.2.2.2⟩

/-- Witness for C5: a user with one account and no transactions selecting
month "2099-01" gets `availableMonths == ["2099-01"]`. -/
theorem resolver_available_months_witness :
    (normalizeMonth (some "2099-01") ⟨2025, 10, 12⟩).1 = "2099-01"
    ∧ (get_selected_account_and_month (some "all") (some "2099-01") ⟨2025, 10, 12⟩ 1
        [1] [] []).all_months = ["2099-01"] := by
  have h := resolver_available_months (some "all") (some "2099-01") ⟨2025, 10, 12⟩ 1
    [1] [] [] (Or.inl (by decide)) _ rfl _ rfl _ rfl
  refine ⟨by decide, ?_⟩
  have := h.2.2.2.2.2 (by decide)
  rw [this]
  decide

/-- C8: the resolver's month normalization — an absent (or empty) month
parameter becomes the current calendar month in `YYYY-MM` form, and a present
but unparseable month parameter falls back to the current month instead of
surfacing an error; the resolver returns exactly the normalized month. -/
theorem month_normalization_fallback (accountParam monthParam : Option String)
    (now : Date) (uid : Nat) (userAccounts linkedAccounts : List Int)
    (txns : List Transaction)
    (hacc : userAccounts ≠ [] ∨ linkedAccounts ≠ []) :
    (get_selected_account_and_month accountParam monthParam now uid
        userAccounts linkedAccounts txns).selected_month
      = some (normalizeMonth monthParam now).1
    ∧ (monthParam = none →
        (normalizeMonth monthParam now).1 = fmtYM now.year now.month)
    ∧ (∀ s, monthParam = some s → parseMonthYM s = none →
        (normalizeMonth monthParam now).1 = fmtYM now.year now.month) := by
  have hne : (userAccounts.isEmpty && linkedAccounts.isEmpty) = false := by
    cases hacc with
    | inl h => simp [List.isEmpty_iff, h]
    | inr h => simp [List.isEmpty_iff, h]
  refine ⟨?_, ?_, ?_⟩
  · unfold get_selected_account_and_month
    rw [if_neg (by simp [hne])]
  · rintro rfl
    unfold normalizeMonth
    cases h : parseMonthYM (fmtYM now.year now.month) with
    | some ym => cases ym; simp [h]
    | none => simp [h]
  · rintro s rfl hps
    unfold normalizeMonth
    by_cases hs : s = ""
    · rw [hs]
      simp only [if_pos rfl]
      cases h : parseMonthYM (fmtYM now.year now.month) with
      | some ym => cases ym; simp [h]
      | none => simp [h]
    · simp only [if_neg hs, hps]

/-- Witness for C8: month parameter "not-a-month" falls back to the current
month 2025-10. -/
theorem month_normalization_fallback_witness :
    parseMonthYM "not-a-month" = none
    ∧ (get_selected_account_and_month none (some "not-a-month") ⟨2025, 10, 12⟩ 1
        [1] [] []).selected_month = some "2025-10" := by
  have h := month_normalization_fallback none (some "not-a-month") ⟨2025, 10, 12⟩ 1
    [1] [] [] (Or.inl (by decide))
  refine ⟨by decide, ?_⟩
  rw [h.1, h.2.2 "not-a-month" rfl (by decide)]
  decide

/-! ### Sticky categorization (C6) -/

theorem categorize_assigned_isSome {lookup : String → Option Nat} {t : Transaction}
    (h : (categorize_transaction lookup t).1 = true) :
    ((categorize_transaction lookup t).2).category_id.isSome = true := by
  unfold categorize_transaction at h ⊢
  by_cases hc : t.category_id.isSome
  · rw [if_pos hc] at h; simp at h
  · rw [if_neg hc] at h ⊢
    cases hs : scanPairs lookup (lowerStr t.description) catKeywordPairs with
    | some cid => simp [hs]
    | none => rw [hs] at h; simp at h

/-- C6: a transaction that already has a category is never re-categorized —
`categorize_transaction` is a no-op returning `False` ("already categorized")
on any transaction whose `category_id` is set; consequently, after a first
call assigns a category, a second call (under any category table) leaves the
category unchanged even if the description was mutated in between. -/
theorem categorize_already_categorized_noop (lookup lookup2 : String → Option Nat)
    (t : Transaction) (hassigned : (categorize_transaction lookup t).1 = true)
    (d : String) :
    (∀ u : Transaction, u.category_id.isSome = true →
      categorize_transaction lookup2 u = (false, u))
    ∧ categorize_transaction lookup2
        { (categorize_transaction lookup t).2 with description := d }
      = (false, { (categorize_transaction lookup t).2 with description := d })
    ∧ ({ (categorize_transaction lookup t).2 with description := d }).category_id
      = ((categorize_transaction lookup t).2).category_id := by
  have hnoop : ∀ u : Transaction, u.category_id.isSome = true →
      categorize_transaction lookup2 u = (false, u) := by
    intro u hu
    unfold categorize_transaction
    rw [if_pos hu]
  exact ⟨hnoop, hnoop _ (categorize_assigned_isSome hassigned), rfl⟩

/-- Witness for C6: the first call assigns Food & Drink to
"Payment to Zomato"; mutating the description to "Payment to Uber" and
calling again reports `False` and leaves the category at Food & Drink. -/
theorem categorize_already_categorized_noop_witness :
    (categorize_transaction stdCatLookup
      ⟨1, none, none, none, ⟨2025, 3, 1⟩, "Payment to Zomato", 450⟩).1 = true
    ∧ categorize_transaction stdCatLookup
        { (categorize_transaction stdCatLookup
            ⟨1, none, none, none, ⟨2025, 3, 1⟩, "Payment to Zomato", 450⟩).2 with
          description := "Payment to Uber" }
      = (false, { (categorize_transaction stdCatLookup
            ⟨1, none, none, none, ⟨2025, 3, 1⟩, "Payment to Zomato", 450⟩).2 with
          description := "Payment to Uber" })
    ∧ ((categorize_transaction stdCatLookup
          ⟨1, none, none, none, ⟨2025, 3, 1⟩, "Payment to Zomato", 450⟩).2).category_id
      = stdCatLookup "Food & Drink" := by
  have h := categorize_already_categorized_noop stdCatLookup stdCatLookup
    ⟨1, none, none, none, ⟨2025, 3, 1⟩, "Payment to Zomato", 450⟩ (by decide)
    "Payment to Uber"
  exact ⟨by decide, h.2.1, by decide⟩

theorem mem_groupSums {pairs : List (String × Int)} {nm : String} {s : Int} :
    (nm, s) ∈ groupSums pairs ↔ nm ∈ pairs.map Prod.fst ∧ s = sumFor pairs nm := by
  unfold groupSums namesInOrder
  rw [List.mem_map]
  constructor
  · rintro ⟨nm2, hmem, heq⟩
    obtain ⟨h1, h2⟩ := Prod.mk.injEq .. ▸ heq
    subst h1
    exact ⟨List.mem_dedup.mp hmem, h2.symm⟩
  · rintro ⟨hmem, rfl⟩
    exact ⟨nm, List.mem_dedup.mpr hmem, rfl⟩

theorem groupSums_map_fst (pairs : List (String × Int)) :
    (groupSums pairs).map Prod.fst = namesInOrder pairs := by
  unfold groupSums
  rw [List.map_map]
  exact List.map_id _

theorem groupSums_eq_nil_iff (pairs : List (String × Int)) :
    groupSums pairs = [] ↔ pairs = [] := by
  unfold groupSums namesInOrder
  rw [List.map_eq_nil_iff, List.dedup_eq_nil, List.map_eq_nil_iff]

theorem dashTopCategory_max : ∀ (l : List (String × Int)), l ≠ [] →
    ∃ p, dashTopCategory l = some p ∧ p ∈ l ∧ ∀ q ∈ l, q.2 ≤ p.2
  | [], h => absurd rfl h
  | [p], _ =>
    ⟨p, rfl, List.mem_singleton.mpr rfl, by
      intro q hq
      rw [List.mem_singleton.mp hq]⟩
  | p :: r :: rs, _ => by
    obtain ⟨pm, hpm, hmem, hmax⟩ := dashTopCategory_max (r :: rs) (by simp)
    by_cases hgt : pm.2 > p.2
    · refine ⟨pm, ?_, List.mem_cons_of_mem _ hmem, ?_⟩
      · show (match dashTopCategory (r :: rs) with
            | none => some p
            | some q => if q.2 > p.2 then some q else some p) = some pm
        rw [hpm]
        simp [hgt]
      · intro q hq
        rcases List.mem_cons.mp hq with rfl | hq2
        · exact le_of_lt hgt
        · exact hmax q hq2
    · refine ⟨p, ?_, List.mem_cons_self _ _, ?_⟩
      · show (match dashTopCategory (r :: rs) with
            | none => some p
            | some q => if q.2 > p.2 then some q else some p) = some p
        rw [hpm]
        simp [hgt]
      · intro q hq
        rcases List.mem_cons.mp hq with rfl | hq2
        · exact le_refl _
        · exact le_trans (hmax q hq2) (not_lt.mp hgt)

theorem pyOr0_sqlSumScalar (l : List Int) : pyOr0 (sqlSumScalar l) = l.sum := by
  unfold pyOr0 sqlSumScalar
  by_cases h : l.isEmpty
  · rw [if_pos h, List.isEmpty_iff.mp h]; rfl
  · rw [if_neg h]
    by_cases hz : l.sum = 0
    · simp [hz]
    · simp [hz]

/-- C2: for every scope and calendar month, the aggregation yields
`totalSpending` equal to the sum of amounts over the matching transactions
(0 — never null — when there are none), `transactionCount` equal to their
number, a category breakdown with one entry per distinct category name of
the categorized matching transactions carrying that name's summed amount,
the `"Uncategorized"` entry appended last exactly when the uncategorized sum
is positive, and a top category achieving the maximal summed amount among
categorized matching transactions (`'N/A'` when there are none). -/
theorem aggregate_spec (sel : AccountSel) (uid : Nat) (y m : Int)
    (st : DbState)
    (M : List Transaction) (hM : M = monthScopeTxns sel uid y m st.txns)
    (pairs : List (String × Int)) (hpairs : pairs = joinedCatAmounts st.cats M)
    (u : Int)
    (hu : u = ((M.filter (fun t => t.category_id == none)).map (fun t => t.amount)).sum) :
    (dashboardStatsBody sel uid y m st).total_spending = (M.map (fun t => t.amount)).sum
    ∧ (dashboardStatsBody sel uid y m st).transaction_count = M.length
    ∧ (∀ nm s, (nm, s) ∈ groupSums pairs ↔ nm ∈ pairs.map Prod.fst ∧ s = sumFor pairs nm)
    ∧ ((groupSums pairs).map Prod.fst).Nodup
    ∧ chartLabelsData st.cats sel uid y m st.txns
        = ((groupSums pairs).map Prod.fst ++ (if u > 0 then ["Uncategorized"] else []),
           (groupSums pairs).map Prod.snd ++ (if u > 0 then [u] else []))
    ∧ (pairs = [] → (dashboardStatsBody sel uid y m st).top_category = "N/A")
    ∧ (pairs ≠ [] →
        ∃ s, ((dashboardStatsBody sel uid y m st).top_category, s) ∈ groupSums pairs
          ∧ ∀ q ∈ groupSums pairs, q.2 ≤ s) := by
  subst hM hpairs
  refine ⟨pyOr0_sqlSumScalar _, rfl, fun nm s => mem_groupSums, ?_, ?_, ?_, ?_⟩
  · rw [groupSums_map_fst]
    exact (List.map _ _).nodup_dedup
  · unfold chartLabelsData uncategorizedSum sqlSumScalar
    by_cases hf : (((monthScopeTxns sel uid y m st.txns).filter
        (fun t => t.category_id == none)).map (fun t => t.amount)).isEmpty
    · rw [if_pos hf]
      have hu0 : u = 0 := by rw [hu, List.isEmpty_iff.mp hf]; rfl
      subst hu0
      simp
    · rw [if_neg hf, ← hu]
      by_cases hpos : u > 0 <;> simp [hpos]
  · intro hnil
    unfold dashboardStatsBody
    rw [(groupSums_eq_nil_iff _).mpr hnil]
    rfl
  · intro hne
    have hgne : groupSums (joinedCatAmounts st.cats (monthScopeTxns sel uid y m st.txns)) ≠ [] :=
      fun h => hne ((groupSums_eq_nil_iff _).mp h)
    obtain ⟨p, hp, hmem, hmax⟩ := dashTopCategory_max _ hgne
    refine ⟨p.2, ?_, hmax⟩
    unfold dashboardStatsBody
    rw [hp]
    exact hmem

/-- Witness for C2: the spec's concrete example — March 2025 amounts
[100, 200, 50] with 100 and 200 in category "Food" and 50 uncategorized
gives total 350, count 3, breakdown [("Food", 300)] with last entry
("Uncategorized", 50), top "Food". -/
theorem aggregate_spec_witness :
    (dashboardStatsBody .all 1 2025 3
      ⟨[⟨1, none, none, some 1, ⟨2025, 3, 5⟩, "a", 100⟩,
        ⟨1, none, none, some 1, ⟨2025, 3, 6⟩, "b", 200⟩,
        ⟨1, none, none, none, ⟨2025, 3, 7⟩, "c", 50⟩], [(1, "Food")], [], []⟩).total_spending
      = 350
    ∧ (dashboardStatsBody .all 1 2025 3
      ⟨[⟨1, none, none, some 1, ⟨2025, 3, 5⟩, "a", 100⟩,
        ⟨1, none, none, some 1, ⟨2025, 3, 6⟩, "b", 200⟩,
        ⟨1, none, none, none, ⟨2025, 3, 7⟩, "c", 50⟩], [(1, "Food")], [], []⟩).transaction_count
      = 3
    ∧ chartLabelsData [(1, "Food")] .all 1 2025 3
        [⟨1, none, none, some 1, ⟨2025, 3, 5⟩, "a", 100⟩,
         ⟨1, none, none, some 1, ⟨2025, 3, 6⟩, "b", 200⟩,
         ⟨1, none, none, none, ⟨2025, 3, 7⟩, "c", 50⟩]
      = (["Food", "Uncategorized"], [300, 50])
    ∧ (dashboardStatsBody .all 1 2025 3
      ⟨[⟨1, none, none, some 1, ⟨2025, 3, 5⟩, "a", 100⟩,
        ⟨1, none, none, some 1, ⟨2025, 3, 6⟩, "b", 200⟩,
        ⟨1, none, none, none, ⟨2025, 3, 7⟩, "c", 50⟩], [(1, "Food")], [], []⟩).top_category
      = "Food" := by
  have h := aggregate_spec .all 1 2025 3
    ⟨[⟨1, none, none, some 1, ⟨2025, 3, 5⟩, "a", 100⟩,
      ⟨1, none, none, some 1, ⟨2025, 3, 6⟩, "b", 200⟩,
      ⟨1, none, none, none, ⟨2025, 3, 7⟩, "c", 50⟩], [(1, "Food")], [], []⟩
    _ rfl _ rfl _ rfl
  refine ⟨by rw [h.1]; decide, by rw [h.2.1]; decide, by rw [h.2.2.2.2.1]; decide, by decide⟩

/-- C7: the aggregation boundary never raises — for every scope and month
the dashboard and chart aggregations are total, and on any query execution
fault they degrade to the safe empty results (total 0, count 0, top 'N/A';
empty labels and data) instead of propagating the exception. -/
theorem aggregation_boundary_never_raises (sel : AccountSel) (uid : Nat)
    (y m : Int) (db : Except String DbState) :
    (∃ st, db = .ok st
      ∧ dashboardStats sel uid y m db = dashboardStatsBody sel uid y m st
      ∧ spending_by_category sel uid y m db = chartBody sel uid y m st)
    ∨ (∃ e, db = .error e
      ∧ dashboardStats sel uid y m db = ⟨0, 0, "N/A"⟩
      ∧ spending_by_category sel uid y m db = ([], [])) := by
  cases db with
  | ok st => exact Or.inl ⟨st, rfl, rfl, rfl⟩
  | error e => exact Or.inr ⟨e, rfl, rfl, rfl⟩

theorem categorize_shape (lookup : String → Option Nat) (t : Transaction) :
    ∃ c, (categorize_transaction lookup t).2 = { t with category_id := c } := by
  unfold categorize_transaction
  by_cases hc : t.category_id.isSome
  · rw [if_pos hc]
    exact ⟨t.category_id, rfl⟩
  · rw [if_neg hc]
    cases hs : scanPairs lookup (lowerStr t.description) catKeywordPairs with
    | some cid => exact ⟨some cid, by simp⟩
    | none => exact ⟨t.category_id, by simp⟩

/-- C4 counterexample against the claim for `sync_all_accounts`: a stored
transaction of account 1 dated 2025-03-01 suppresses a candidate with the
same description and amount dated 2025-03-02 — a difference in date does
NOT create a new transaction, because that dedup filter omits the date. -/
theorem ingest_dedup_ignores_date_cex :
    sync_all_ingest stdCatLookup 1 1
      [⟨1, some 1, none, some 0, ⟨2025, 3, 1⟩, "Payment to Zomato", 450⟩]
      [⟨⟨2025, 3, 2⟩, "Payment to Zomato", 450⟩]
    = [⟨1, some 1, none, some 0, ⟨2025, 3, 1⟩, "Payment to Zomato", 450⟩]
    ∧ (⟨2025, 3, 2⟩ : Date) ≠ (⟨2025, 3, 1⟩ : Date) := by
  refine ⟨by decide, by decide⟩

/-- C4 (amended): `bank_sync_account` suppresses a candidate exactly when an
existing stored transaction of the same linked account matches on date,
description and amount all exactly, and ingesting the same candidate twice
for the same account leaves exactly one matching stored transaction;
`sync_all_accounts`, however, suppresses exactly on an
(account, description, amount) match, ignoring the date. -/
theorem ingestion_dedup (lookup : String → Option Nat) (uid : Nat) (acct : Int)
    (stored : List Transaction) (tx : TxData) :
    (bank_sync_step lookup uid acct stored tx = stored
      ↔ ∃ s ∈ stored, bankSyncMatches acct tx s = true)
    ∧ ((stored.filter (bankSyncMatches acct tx)).length = 0 →
        ((bank_sync_ingest lookup uid acct
            (bank_sync_ingest lookup uid acct stored [tx]) [tx]).filter
          (bankSyncMatches acct tx)).length = 1)
    ∧ (sync_all_step lookup uid acct stored tx = stored
      ↔ ∃ s ∈ stored, syncAllMatches acct tx s = true) := by
  have hnew : bankSyncMatches acct tx
      ((categorize_transaction lookup
        ⟨uid, none, some acct, none, tx.date, tx.description, |tx.amount|⟩).2) = true := by
    obtain ⟨c, hc⟩ := categorize_shape lookup
      ⟨uid, none, some acct, none, tx.date, tx.description, |tx.amount|⟩
    rw [hc]
    simp [bankSyncMatches]
  refine ⟨?_, ?_, ?_⟩
  · constructor
    · intro heq
      by_cases hany : stored.any (bankSyncMatches acct tx)
      · obtain ⟨s, hs, hm⟩ := List.any_eq_true.mp hany
        exact ⟨s, hs, hm⟩
      · exfalso
        rw [bank_sync_step, if_neg hany] at heq
        have := congrArg List.length heq
        simp at this
    · rintro ⟨s, hs, hm⟩
      rw [bank_sync_step, if_pos (List.any_eq_true.mpr ⟨s, hs, hm⟩)]
  · intro h0
    have hnone : ∀ s ∈ stored, ¬bankSyncMatches acct tx s = true := by
      intro s hs hm
      have : s ∈ stored.filter (bankSyncMatches acct tx) := List.mem_filter.mpr ⟨hs, hm⟩
      rw [List.length_eq_zero.mp h0] at this
      exact absurd this (List.not_mem_nil s)
    have hany : stored.any (bankSyncMatches acct tx) = false := by
      rw [List.any_eq_false]
      exact hnone
    have h1 : bank_sync_ingest lookup uid acct stored [tx]
        = stored ++ [(categorize_transaction lookup
            ⟨uid, none, some acct, none, tx.date, tx.description, |tx.amount|⟩).2] := by
      unfold bank_sync_ingest
      rw [List.foldl_cons, List.foldl_nil, bank_sync_step, if_neg (by rw [hany]; simp)]
    have hany2 : (stored ++ [(categorize_transaction lookup
        ⟨uid, none, some acct, none, tx.date, tx.description, |tx.amount|⟩).2]).any
          (bankSyncMatches acct tx) = true := by
      rw [List.any_eq_true]
      exact ⟨_, List.mem_append_right _ (List.mem_singleton.mpr rfl), hnew⟩
    have h2 : bank_sync_ingest lookup uid acct
        (bank_sync_ingest lookup uid acct stored [tx]) [tx]
        = stored ++ [(categorize_transaction lookup
            ⟨uid, none, some acct, none, tx.date, tx.description, |tx.amount|⟩).2] := by
      rw [h1]
      unfold bank_sync_ingest
      rw [List.foldl_cons, List.foldl_nil, bank_sync_step, if_pos hany2]
    rw [h2, List.filter_append]
    have : stored.filter (bankSyncMatches acct tx) = [] := List.length_eq_zero.mp h0
    rw [this]
    simp [hnew]
  · constructor
    · intro heq
      by_cases hany : stored.any (syncAllMatches acct tx)
      · obtain ⟨s, hs, hm⟩ := List.any_eq_true.mp hany
        exact ⟨s, hs, hm⟩
      · exfalso
        rw [sync_all_step, if_neg hany] at heq
        have := congrArg List.length heq
        simp at this
    · rintro ⟨s, hs, hm⟩
      rw [sync_all_step, if_pos (List.any_eq_true.mpr ⟨s, hs, hm⟩)]

/-- Witness for C4 (amended): ingesting the candidate (2025-03-01,
"Payment to Zomato", 450) twice into an empty store for linked account 1
leaves exactly one matching stored transaction. -/
theorem ingestion_dedup_witness :
    ((([] : List Transaction).filter
        (bankSyncMatches 1 ⟨⟨2025, 3, 1⟩, "Payment to Zomato", 450⟩)).length = 0)
    ∧ ((bank_sync_ingest stdCatLookup 1 1
          (bank_sync_ingest stdCatLookup 1 1 []
            [⟨⟨2025, 3, 1⟩, "Payment to Zomato", 450⟩])
          [⟨⟨2025, 3, 1⟩, "Payment to Zomato", 450⟩]).filter
        (bankSyncMatches 1 ⟨⟨2025, 3, 1⟩, "Payment to Zomato", 450⟩)).length = 1 := by
  have h := ingestion_dedup stdCatLookup 1 1 [] ⟨⟨2025, 3, 1⟩, "Payment to Zomato", 450⟩
  exact ⟨by decide, h.2.1 (by decide)⟩

theorem pyRandint_bounds (r a b : Nat) (h : a ≤ b) :
    a ≤ pyRandint r a b ∧ pyRandint r a b ≤ b := by
  unfold pyRandint
  have hlt : r % (b + 1 - a) < b + 1 - a := Nat.mod_lt _ (by omega)
  omega

theorem length_filterMap_of_all_isSome {α β : Type} (f : α → Option β)
    (l : List α) (h : ∀ a ∈ l, (f a).isSome = true) :
    (l.filterMap f).length = l.length := by
  induction l with
  | nil => rfl
  | cons x xs ih =>
    have hx := h x (List.mem_cons_self _ _)
    cases hfx : f x with
    | none => rw [hfx] at hx; simp at hx
    | some b =>
      rw [List.filterMap_cons, hfx, List.length_cons,
        ih (fun a ha => h a (List.mem_cons_of_mem _ ha)), List.length_cons]

theorem daysInMonth_ge_28 (y m : Int) :
    28 ≤ daysInMonth y m := by
  unfold daysInMonth
  by_cases h2 : m = 2
  · rw [if_pos h2]
    by_cases hl : isLeap y <;> simp [hl]
  · rw [if_neg h2]
    by_cases h30 : m = 4 ∨ m = 6 ∨ m = 9 ∨ m = 11
    · rw [if_pos h30]; omega
    · rw [if_neg h30]; omega

/-- C10 counterexample: for the (representable) month 13 every iteration's
`datetime(year, month, day)` raises and is skipped, so the returned list is
empty — it does not contain between 15 and 25 transactions. -/
theorem generate_monthly_statement_invalid_month_cex :
    generate_monthly_statement 2025 13 0 (fun i => i) (fun i => i) (fun i => i) = []
    ∧ ¬(15 ≤ (generate_monthly_statement 2025 13 0
        (fun i => i) (fun i => i) (fun i => i)).length) := by
  refine ⟨by decide, by decide⟩

/-- C10 (amended): for every requested year in 1..9999 and month in 1..12
(the range on which `datetime` accepts the drawn days), the statement
contains between 15 and 25 transactions, and every entry has amount at
least 50, the requested calendar year and month with day between 1 and 28,
and a description of the form "Payment to <merchant>" for a merchant of the
table (with that merchant's category). -/
theorem generate_monthly_statement_spec (year month : Int) (rNum : Nat)
    (rDay rMerch rVar : Nat → Nat)
    (hy1 : 1 ≤ year) (hy2 : year ≤ 9999) (hm1 : 1 ≤ month) (hm2 : month ≤ 12) :
    (15 ≤ (generate_monthly_statement year month rNum rDay rMerch rVar).length
      ∧ (generate_monthly_statement year month rNum rDay rMerch rVar).length ≤ 25)
    ∧ ∀ g ∈ generate_monthly_statement year month rNum rDay rMerch rVar,
        50 ≤ g.amount
        ∧ g.dyear = year ∧ g.dmonth = month ∧ 1 ≤ g.dday ∧ g.dday ≤ 28
        ∧ ∃ mb ∈ merchants,
            g.description = "Payment to " ++ mb.1 ∧ g.category = mb.2.2 := by
  have hvalid : ∀ i : Nat,
      datetimeValid year month ((pyRandint (rDay i) 1 28 : Nat) : Int) = true := by
    intro i
    obtain ⟨hd1, hd2⟩ := pyRandint_bounds (rDay i) 1 28 (by omega)
    have h28 := daysInMonth_ge_28 year month
    unfold datetimeValid
    simp only [Bool.and_eq_true, decide_eq_true_eq]
    omega
  constructor
  · have hlen : (generate_monthly_statement year month rNum rDay rMerch rVar).length
        = pyRandint rNum 15 25 := by
      unfold generate_monthly_statement
      rw [length_filterMap_of_all_isSome]
      · exact List.length_range _
      · intro i _
        rw [if_pos (hvalid i)]
        rfl
    rw [hlen]
    exact pyRandint_bounds rNum 15 25 (by omega)
  · intro g hg
    unfold generate_monthly_statement at hg
    obtain ⟨i, _, hfi⟩ := List.mem_filterMap.mp hg
    rw [if_pos (hvalid i)] at hfi
    obtain rfl := Option.some.inj hfi
    obtain ⟨hd1, hd2⟩ := pyRandint_bounds (rDay i) 1 28 (by omega)
    have hmem : merchants.getD (rMerch i % merchants.length) ("", 0, "") ∈ merchants := by
      have hlt : rMerch i % merchants.length < merchants.length :=
        Nat.mod_lt _ (by decide)
      rw [List.getD_eq_getElem _ _ hlt]
      exact List.getElem_mem hlt
    refine ⟨le_max_left _ _, rfl, rfl, ?_, ?_,
      merchants.getD (rMerch i % merchants.length) ("", 0, ""), hmem, rfl, rfl⟩
    · show (1 : Int) ≤ ((pyRandint (rDay i) 1 28 : Nat) : Int)
      exact_mod_cast hd1
    · show ((pyRandint (rDay i) 1 28 : Nat) : Int) ≤ 28
      exact_mod_cast hd2

/-- Witness for C10 (amended) at March 2025 with explicit seed streams. -/
theorem generate_monthly_statement_spec_witness :
    (15 ≤ (generate_monthly_statement 2025 3 0
        (fun i => i) (fun i => i) (fun i => i)).length
      ∧ (generate_monthly_statement 2025 3 0
        (fun i => i) (fun i => i) (fun i => i)).length ≤ 25)
    ∧ ∀ g ∈ generate_monthly_statement 2025 3 0 (fun i => i) (fun i => i) (fun i => i),
        50 ≤ g.amount
        ∧ g.dyear = 2025 ∧ g.dmonth = 3 ∧ 1 ≤ g.dday ∧ g.dday ≤ 28
        ∧ ∃ mb ∈ merchants,
            g.description = "Payment to " ++ mb.1 ∧ g.category = mb.2.2 :=
  generate_monthly_statement_spec 2025 3 0 (fun i => i) (fun i => i) (fun i => i)
    (by decide) (by decide) (by decide) (by decide)

end FinTrack
